import Mathlib

/-!
Shallow embedding of `asyncudp` (src/asyncudp/__init__.py).

The library bridges the asyncio push-style datagram callbacks into a
pull-style awaitable receive.  The embedding models:

* `SocketProtocol` — the state of `_SocketProtocol`: the FIFO queue
  `_packets` (elements are `none` for the closure sentinel enqueued by
  `connection_lost`, or `some (data, addr)` enqueued by
  `datagram_received`), and the single-slot error mailbox `_error`
  written unconditionally by `error_received`.
* `SocketProtocol.recvfrom` — the poll loop
  `while True: try: await wait_for(get(), timeout=0.6) ... except TimeoutError: if self._error: ...`.
  Time is discretised into poll windows ("rounds"), one per iteration of
  the loop: a schedule `Nat → List Event` says which reactor callbacks
  run during each window.  If the queue is non-empty after the arrivals
  of the window, the front element is dequeued and returned; otherwise the
  wait times out and the error mailbox is checked — the Python test
  `if self._error:` is the truthiness of the stored object, modelled by
  the `truthy` field of `Exc`.  Fuel bounds the number of rounds; the
  outcome `waiting` means the call is still suspended after that many
  rounds.  In the worst-case timing family of real executions, each
  completed round accounts for up to one full poll interval (0.6 time
  units) of wall-clock time.
* `Socket` — the user-facing wrapper: `sendto` hands the payload and
  optional address to the transport, `recvfrom` turns the dequeued
  sentinel into the `ClosedError` outcome, `close`/`__aexit__` request
  transport shutdown.
-/

namespace Asyncudp

/-- Datagram payload: a byte string, modelled as a list of byte values. -/
abbrev Data := List Nat

/-- A network address `(host, port)`; hosts are modelled by numeric ids. -/
abbrev Addr := Nat × Nat

/-- A Python exception object.  `truthy` is the result of `bool(exc)`:
`True` for every ordinary exception, but a class overriding `__bool__`
(or `__len__`) can make it `False`, which matters for the
`if self._error:` test in `recvfrom`. -/
structure Exc where
  id : Nat
  truthy : Bool
deriving DecidableEq

/-- A queue element of `_packets`: `none` is the closure sentinel put by
`connection_lost`, `some (data, addr)` a received datagram. -/
abbrev QElem := Option (Data × Addr)

/-- State of `_SocketProtocol`: the FIFO `_packets` queue (front of the
list is dequeued first) and the `_error` mailbox. -/
structure SocketProtocol where
  packets : List QElem
  error : Option Exc
deriving DecidableEq

/-- `_SocketProtocol.__init__`: empty queue, no pending error. -/
def initProtocol : SocketProtocol := ⟨[], none⟩

/-- `connection_made(transport)`: `pass`. -/
def SocketProtocol.connection_made (s : SocketProtocol) : SocketProtocol := s

/-- `connection_lost(transport)`: `self._packets.put_nowait(None)`. -/
def SocketProtocol.connection_lost (s : SocketProtocol) : SocketProtocol :=
  { s with packets := s.packets ++ [none] }

/-- `datagram_received(data, addr)`: `self._packets.put_nowait((data, addr))`. -/
def SocketProtocol.datagram_received (s : SocketProtocol) (d : Data) (a : Addr) :
    SocketProtocol :=
  { s with packets := s.packets ++ [some (d, a)] }

/-- `error_received(exc)`: `self._error = exc` — unconditional assignment. -/
def SocketProtocol.error_received (s : SocketProtocol) (e : Exc) : SocketProtocol :=
  { s with error := some e }

/-- A reactor callback delivered to the protocol. -/
inductive Event where
  | lost
  | datagram (d : Data) (a : Addr)
  | err (e : Exc)
deriving DecidableEq

/-- Dispatch one reactor callback to the corresponding protocol method. -/
def applyEvent (s : SocketProtocol) : Event → SocketProtocol
  | .lost => s.connection_lost
  | .datagram d a => s.datagram_received d a
  | .err e => s.error_received e

/-- Apply a sequence of reactor callbacks in order. -/
def applyEvents (s : SocketProtocol) (evs : List Event) : SocketProtocol :=
  evs.foldl applyEvent s

/-- The schedule under which no reactor callback ever runs. -/
def emptySched : Nat → List Event := fun _ => []

/-- Result of one `recvfrom` call on the protocol. -/
inductive RecvOutcome where
  | got (q : QElem)
  | raised (e : Exc)
  | waiting
deriving DecidableEq

/-- One iteration of the `while True` loop of `_SocketProtocol.recvfrom`,
i.e. one poll window of 0.6 time units at round `r`: first the scheduled
callbacks of the window run, then either the queue front is dequeued
(`wait_for` returned), or the wait times out and `if self._error:` is
checked — a truthy error is taken, cleared and raised; otherwise the
loop continues (`inl` carries the state into the next round). -/
def pollRound (sched : Nat → List Event) (r : Nat) (s : SocketProtocol) :
    SocketProtocol ⊕ (RecvOutcome × SocketProtocol) :=
  let s1 := applyEvents s (sched r)
  match s1.packets with
  | q :: rest => .inr (.got q, { s1 with packets := rest })
  | [] =>
    match s1.error with
    | some e =>
        if e.truthy then .inr (.raised e, { s1 with error := none }) else .inl s1
    | none => .inl s1

/-- `_SocketProtocol.recvfrom`, run for at most `fuel` poll windows
starting at round `r`.  Returns the outcome, the protocol state after
the call, and the round at which the call ended. -/
def SocketProtocol.recvfrom : Nat → (Nat → List Event) → Nat → SocketProtocol →
    RecvOutcome × SocketProtocol × Nat
  | 0, _, r, s => (.waiting, s, r)
  | fuel + 1, sched, r, s =>
    match pollRound sched r s with
    | .inr (o, s1) => (o, s1, r + 1)
    | .inl s1 => SocketProtocol.recvfrom fuel sched (r + 1) s1

/-- The asyncio datagram transport, as the Socket uses it: the
preconfigured peer (`remote_addr` of `create_datagram_endpoint`), the
log of `sendto` calls it has received, and how often `close` was
requested. -/
structure Transport where
  peer : Option Addr
  sent : List (Data × Option Addr)
  closeCalls : Nat
deriving DecidableEq

/-- `transport.sendto(data, addr)`: records exactly the handed payload
and optional address; total — it neither raises nor suspends. -/
def Transport.sendto (t : Transport) (d : Data) (a : Option Addr) : Transport :=
  { t with sent := t.sent ++ [(d, a)] }

/-- `transport.close()`: one more shutdown request. -/
def Transport.close (t : Transport) : Transport :=
  { t with closeCalls := t.closeCalls + 1 }

/-- Modelled from the spec: the transport of the reactor sends a datagram to
the explicit address when one is given and to the preconfigured peer
address when the address is `None` (the transport itself is an external
collaborator, not code of this repository). -/
def Transport.destOf (t : Transport) (a : Option Addr) : Option Addr :=
  match a with
  | some x => some x
  | none => t.peer

/-- The user-facing `Socket`: a transport handle and the protocol. -/
structure Socket where
  transport : Transport
  protocol : SocketProtocol
deriving DecidableEq

/-- `Socket.close`: `self._transport.close()`. -/
def Socket.close (s : Socket) : Socket :=
  { s with transport := s.transport.close }

/-- `Socket.sendto(data, addr=None)`: `self._transport.sendto(data, addr)`. -/
def Socket.sendto (s : Socket) (d : Data) (a : Option Addr) : Socket :=
  { s with transport := s.transport.sendto d a }

/-- `Socket.__aexit__`: `self.close()`. -/
def Socket.aexit (s : Socket) : Socket := s.close

/-- How the scope of an `async with` block exits. -/
inductive ExitPath where
  | normal
  | failed (e : Exc)
  | cancelled
deriving DecidableEq

/-- Modelled from the spec: the Python `async with` construct (external
language runtime, not code of this repository) runs `__aexit__` exactly
once on every exit path from the block — normal return, exception, or
cancellation.  The body is abstracted as a function producing the exit
path and the socket state at scope exit. -/
def withScope (body : Socket → ExitPath × Socket) (s : Socket) : ExitPath × Socket :=
  match body s with
  | (p, s1) => (p, s1.aexit)

/-- Result of one `Socket.recvfrom` call. -/
inductive SockOutcome where
  | ret (d : Data) (a : Addr)
  | closedError
  | err (e : Exc)
  | waiting
deriving DecidableEq

/-- `Socket.recvfrom`: awaits `self._protocol.recvfrom()` and raises
`ClosedError` when the dequeued packet `is None`; a raised transport
error propagates verbatim. -/
def Socket.recvfrom (fuel : Nat) (sched : Nat → List Event) (r : Nat)
    (p : SocketProtocol) : SockOutcome × SocketProtocol × Nat :=
  match p.recvfrom fuel sched r with
  | (.got none, s1, r1) => (.closedError, s1, r1)
  | (.got (some (d, a)), s1, r1) => (.ret d a, s1, r1)
  | (.raised e, s1, r1) => (.err e, s1, r1)
  | (.waiting, s1, r1) => (.waiting, s1, r1)

/-- A consumer calling `Socket.recvfrom` `n` times in a row, each call
running for at most `fuel` poll windows, over one global round counter. -/
def recvCalls : Nat → Nat → (Nat → List Event) → Nat → SocketProtocol →
    List SockOutcome × SocketProtocol × Nat
  | 0, _, _, r, s => ([], s, r)
  | n + 1, fuel, sched, r, s =>
    match Socket.recvfrom fuel sched r s with
    | (o, s1, r1) =>
      match recvCalls n fuel sched r1 s1 with
      | (os, s2, r2) => (o :: os, s2, r2)

/-- The protocol state after `n` datagram callbacks and nothing else,
starting from a fresh socket. -/
def afterDatagrams (ds : List (Data × Addr)) : SocketProtocol :=
  ds.foldl (fun s p => s.datagram_received p.1 p.2) initProtocol

/-- A schedule delivering one datagram `(d, a)` in each of the first `k`
poll windows and nothing afterwards. -/
def schedK (k : Nat) (d : Data) (a : Addr) : Nat → List Event :=
  fun r => if r < k then [Event.datagram d a] else []

/-- The queue element a callback enqueues, if any: `connection_lost`
enqueues the sentinel, `datagram_received` the datagram,
`error_received` enqueues nothing. -/
def enqueueOf : Event → Option QElem
  | .lost => some none
  | .datagram d a => some (some (d, a))
  | .err _ => none

/-- All elements ever enqueued by a callback trace, in order. -/
def enqueued (tr : List Event) : List QElem := tr.filterMap enqueueOf

/-- A callback sequence consisting solely of error callbacks. -/
def onlyErrs (l : List Event) : Prop := ∀ ev ∈ l, ∃ e, ev = Event.err e

/-- The documented asyncio reactor contract: `connection_lost` is the
final lifecycle notification — after it, the reactor never reports a
second closure nor delivers a datagram (at most stray error callbacks). -/
def ReactorOk (tr : List Event) : Prop :=
  ∀ l1 l2, tr = l1 ++ Event.lost :: l2 → onlyErrs l2

/-- The protocol state a callback trace produces from a fresh socket. -/
def applyTrace (tr : List Event) : SocketProtocol := applyEvents initProtocol tr

/-- The consumer is suspended forever: with no further reactor
callbacks, `Socket.recvfrom` on this protocol state never produces an
outcome, for any number of poll windows. -/
def hangs (s : SocketProtocol) : Prop :=
  ∀ fuel r, (Socket.recvfrom fuel emptySched r s).1 = SockOutcome.waiting

/-! ## Helper lemmas -/

theorem recvfrom_succ (fuel : Nat) (sched : Nat → List Event) (r : Nat)
    (s : SocketProtocol) :
    SocketProtocol.recvfrom (fuel + 1) sched r s
      = match pollRound sched r s with
        | .inr (o, s1) => (o, s1, r + 1)
        | .inl s1 => SocketProtocol.recvfrom fuel sched (r + 1) s1 := rfl

theorem recvCalls_succ (n fuel : Nat) (sched : Nat → List Event) (r : Nat)
    (s : SocketProtocol) :
    recvCalls (n + 1) fuel sched r s
      = match Socket.recvfrom fuel sched r s with
        | (o, s1, r1) =>
          match recvCalls n fuel sched r1 s1 with
          | (os, s2, r2) => (o :: os, s2, r2) := rfl

theorem recv_idle_none (fuel r : Nat) :
    SocketProtocol.recvfrom fuel emptySched r ⟨[], none⟩
      = (RecvOutcome.waiting, ⟨[], none⟩, r + fuel) := by
  induction fuel generalizing r with
  | zero => rfl
  | succ n ih =>
    have hstep : SocketProtocol.recvfrom (n + 1) emptySched r ⟨[], none⟩
        = SocketProtocol.recvfrom n emptySched (r + 1) ⟨[], none⟩ := rfl
    rw [hstep, ih]
    have harith : r + 1 + n = r + (n + 1) := by omega
    rw [harith]

theorem recv_idle_falsy (e : Exc) (h : e.truthy = false) (fuel r : Nat) :
    SocketProtocol.recvfrom fuel emptySched r ⟨[], some e⟩
      = (RecvOutcome.waiting, ⟨[], some e⟩, r + fuel) := by
  induction fuel generalizing r with
  | zero => rfl
  | succ n ih =>
    have hpoll : pollRound emptySched r ⟨[], some e⟩ = Sum.inl ⟨[], some e⟩ := by
      simp [pollRound, applyEvents, emptySched, h]
    rw [recvfrom_succ]
    simp only [hpoll]
    rw [ih]
    have harith : r + 1 + n = r + (n + 1) := by omega
    rw [harith]

theorem foldl_datagrams (ds : List (Data × Addr)) :
    ∀ s : SocketProtocol,
      ds.foldl (fun s p => s.datagram_received p.1 p.2) s
        = ⟨s.packets ++ ds.map Option.some, s.error⟩ := by
  induction ds with
  | nil => intro s; simp
  | cons p ds ih =>
    intro s
    rw [List.foldl_cons, ih]
    simp [SocketProtocol.datagram_received]

theorem recvCalls_drain (ps : List (Data × Addr)) :
    ∀ r : Nat,
      recvCalls ps.length 1 emptySched r ⟨ps.map Option.some, none⟩
        = (ps.map (fun p => SockOutcome.ret p.1 p.2), ⟨[], none⟩, r + ps.length) := by
  induction ps with
  | nil => intro r; simp [recvCalls]
  | cons p ps ih =>
    intro r
    obtain ⟨d, a⟩ := p
    have h1 : Socket.recvfrom 1 emptySched r ⟨some (d, a) :: ps.map Option.some, none⟩
        = (SockOutcome.ret d a, ⟨ps.map Option.some, none⟩, r + 1) := rfl
    simp only [List.length_cons, List.map_cons, recvCalls_succ, h1, ih (r + 1)]
    have harith : r + 1 + ps.length = r + (ps.length + 1) := by omega
    rw [harith]

theorem packets_applyEvents (tr : List Event) :
    ∀ s : SocketProtocol, (applyEvents s tr).packets = s.packets ++ enqueued tr := by
  induction tr with
  | nil => intro s; simp [applyEvents, enqueued]
  | cons ev rest ih =>
    intro s
    have hstep : applyEvents s (ev :: rest) = applyEvents (applyEvent s ev) rest := rfl
    rw [hstep, ih]
    cases ev <;>
      simp [applyEvent, SocketProtocol.connection_lost, SocketProtocol.datagram_received,
        SocketProtocol.error_received, enqueued, List.filterMap_cons, enqueueOf]

theorem enqueued_append (l1 l2 : List Event) :
    enqueued (l1 ++ l2) = enqueued l1 ++ enqueued l2 := by
  simp [enqueued]

theorem enqueued_of_onlyErrs : ∀ l : List Event, onlyErrs l → enqueued l = [] := by
  intro l
  induction l with
  | nil => intro _; simp [enqueued]
  | cons ev rest ih =>
    intro h
    obtain ⟨e, he⟩ := h ev (List.mem_cons_self ev rest)
    subst he
    have hrest : onlyErrs rest := fun x hx => h x (List.mem_cons_of_mem _ hx)
    simp only [enqueued, List.filterMap_cons, enqueueOf]
    exact ih hrest

theorem lost_mem_of_sentinel_enqueued :
    ∀ l : List Event, (none : QElem) ∈ enqueued l → Event.lost ∈ l := by
  intro l
  induction l with
  | nil => intro h; simp [enqueued] at h
  | cons ev rest ih =>
    intro h
    cases ev with
    | lost => exact List.mem_cons_self _ _
    | datagram d a =>
      simp [enqueued, List.filterMap_cons, enqueueOf] at h
      exact List.mem_cons_of_mem _ (ih (by simpa [enqueued] using h))
    | err e =>
      simp [enqueued, List.filterMap_cons, enqueueOf] at h
      exact List.mem_cons_of_mem _ (ih (by simpa [enqueued] using h))

/-! ## Claims -/

/-- C1: if N datagram-received callbacks run before any receive, N
successive `Socket.recvfrom` calls return exactly the N
(payload, sender-address) pairs in callback order, each payload paired
with the address of its own callback, draining the queue. -/
theorem C1_recvfrom_fifo_order (ds : List (Data × Addr)) (r : Nat) :
    recvCalls ds.length 1 emptySched r (afterDatagrams ds)
      = (ds.map (fun p => SockOutcome.ret p.1 p.2), ⟨[], none⟩, r + ds.length) := by
  have h : afterDatagrams ds = ⟨ds.map Option.some, none⟩ := by
    simpa [initProtocol] using foldl_datagrams ds initProtocol
  rw [h, recvCalls_drain ds r]

/-- C2: `Socket.recvfrom` produces the ClosedError outcome exactly when
the element dequeued from the protocol is the closure sentinel `none`
(the value `connection_lost` enqueues), and for a dequeued datagram
element it returns that payload-address pair instead. -/
theorem C2_closedError_iff_sentinel (fuel : Nat) (sched : Nat → List Event)
    (r : Nat) (p : SocketProtocol) :
    ((Socket.recvfrom fuel sched r p).1 = SockOutcome.closedError
        ↔ (SocketProtocol.recvfrom fuel sched r p).1 = RecvOutcome.got none)
    ∧ (∀ d a, (Socket.recvfrom fuel sched r p).1 = SockOutcome.ret d a
        ↔ (SocketProtocol.recvfrom fuel sched r p).1 = RecvOutcome.got (some (d, a)))
    ∧ (SocketProtocol.connection_lost p).packets = p.packets ++ [none] := by
  refine ⟨?_, ?_, rfl⟩ <;>
    · rcases hres : SocketProtocol.recvfrom fuel sched r p with ⟨o, s1, r1⟩
      cases o with
      | got q =>
        cases q with
        | none => simp [Socket.recvfrom, hres]
        | some da =>
          obtain ⟨d0, a0⟩ := da
          simp [Socket.recvfrom, hres]
      | raised e => simp [Socket.recvfrom, hres]
      | waiting => simp [Socket.recvfrom, hres]

/-- C3: with a truthy error reported and no datagram queued, the next
`Socket.recvfrom` raises that exact error object at the timeout of the
first poll window (within one poll interval), clearing the mailbox in
the same step, and an immediate second call does not raise it again (it
keeps waiting).  The truthiness hypothesis holds for every ordinary
Python exception, in particular for all transport errors the reactor
reports; the falsy corner case is C10. -/
theorem C3_error_raised_once (e : Exc) (r fuel fuel2 r2 : Nat)
    (ht : e.truthy = true) :
    Socket.recvfrom (fuel + 1) emptySched r ⟨[], some e⟩
        = (SockOutcome.err e, ⟨[], none⟩, r + 1)
    ∧ (Socket.recvfrom fuel2 emptySched r2 ⟨[], none⟩).1 = SockOutcome.waiting := by
  constructor
  · have hpoll : pollRound emptySched r ⟨[], some e⟩
        = Sum.inr (RecvOutcome.raised e, ⟨[], none⟩) := by
      simp [pollRound, applyEvents, emptySched, ht]
    rw [Socket.recvfrom, recvfrom_succ]
    simp only [hpoll]
  · rw [Socket.recvfrom, recv_idle_none]

/-- Witness for C3 at a concrete truthy error. -/
theorem C3_witness :
    Socket.recvfrom 1 emptySched 0 ⟨[], some ⟨3, true⟩⟩
        = (SockOutcome.err ⟨3, true⟩, ⟨[], none⟩, 1)
    ∧ (Socket.recvfrom 4 emptySched 1 ⟨[], none⟩).1 = SockOutcome.waiting :=
  C3_error_raised_once ⟨3, true⟩ 0 0 4 1 rfl

/-- C6 counterexample: `error_received` overwrites a stored error that
was never consumed — the first stored error is still in the slot (no
`recvfrom` ran in between) and the second callback replaces it anyway,
so the rule that a new error overwrites the slot only if the previous
one has already been consumed is false of the code. -/
theorem C6_counterexample :
    (initProtocol.error_received ⟨1, true⟩).error = some ⟨1, true⟩
    ∧ ((initProtocol.error_received ⟨1, true⟩).error_received ⟨2, true⟩).error
        = some ⟨2, true⟩
    ∧ (⟨1, true⟩ : Exc) ≠ ⟨2, true⟩ := by
  refine ⟨rfl, rfl, ?_⟩
  decide

/-- C6 amended: the mailbox holds at most one error and `error_received`
replaces the slot unconditionally — last-write-wins whether or not the
previously stored error was consumed; the queue is untouched. -/
theorem C6_last_write_wins (s : SocketProtocol) (e1 e2 : Exc) :
    (s.error_received e1).error = some e1
    ∧ ((s.error_received e1).error_received e2).error = some e2
    ∧ ((s.error_received e1).error_received e2).packets = s.packets :=
  ⟨rfl, rfl, rfl⟩

/-- C8: `Socket.sendto` hands exactly the given payload and optional
address to `transport.sendto` in the same call and changes nothing
else; the transport resolves a missing address to its preconfigured
peer and an explicit address overrides it for that call only (the
stored peer is unchanged).  `Socket.sendto` is a total function — it
never raises and never suspends; failures surface only later through
the error mailbox read by `recvfrom`. -/
theorem C8_sendto_exact (s : Socket) (d : Data) (a : Option Addr) :
    Socket.sendto s d a
        = { s with transport :=
              { s.transport with sent := s.transport.sent ++ [(d, a)] } }
    ∧ (Socket.sendto s d a).transport.peer = s.transport.peer
    ∧ Transport.destOf s.transport none = s.transport.peer
    ∧ (∀ x : Addr, Transport.destOf s.transport (some x) = some x) :=
  ⟨rfl, rfl, rfl, fun _ => rfl⟩

/-- C9: every exit path from the scoped-use block — normal return,
exception, or cancellation — runs `Socket.close` exactly once at scope
exit (the transport accumulates exactly one more shutdown request than
the body produced, whatever the exit path), and `close` itself does
nothing beyond requesting transport shutdown. -/
theorem C9_scope_close_once (body : Socket → ExitPath × Socket) (s : Socket) :
    (withScope body s).1 = (body s).1
    ∧ (withScope body s).2 = Socket.close (body s).2
    ∧ (withScope body s).2.transport.closeCalls
        = (body s).2.transport.closeCalls + 1
    ∧ (∀ t : Socket, Socket.close t
        = { t with transport :=
              { t.transport with closeCalls := t.transport.closeCalls + 1 } }) := by
  rcases hb : body s with ⟨p, s1⟩
  refine ⟨?_, ?_, ?_, fun t => rfl⟩ <;>
    simp [withScope, hb, Socket.aexit, Socket.close, Transport.close]

/-- C10: occupancy of the error mailbox is decided by the truthiness of
the stored object, not by its presence — with a boolean-false exception
stored and an empty queue, `recvfrom` neither raises it nor clears it
for any number of poll windows: the state is unchanged, the error is
retained forever and never delivered. -/
theorem C10_falsy_error_retained (e : Exc) (r fuel : Nat)
    (h : e.truthy = false) :
    SocketProtocol.recvfrom fuel emptySched r ⟨[], some e⟩
        = (RecvOutcome.waiting, ⟨[], some e⟩, r + fuel)
    ∧ (Socket.recvfrom fuel emptySched r ⟨[], some e⟩).1 = SockOutcome.waiting := by
  constructor
  · exact recv_idle_falsy e h fuel r
  · rw [Socket.recvfrom, recv_idle_falsy e h fuel r]

/-- C4 counterexample: closure is reported on a fresh socket; the first
`Socket.recvfrom` dequeues the sentinel and raises ClosedError, after
which the queue is drained — and every subsequent call, for any number
of poll windows, is still waiting: it never raises ClosedError again
(concretely, after 7 further windows the outcome is not ClosedError),
contradicting the claim that every subsequent call raises the terminal
closed signal rather than suspending indefinitely. -/
theorem C4_counterexample :
    Socket.recvfrom 1 emptySched 0 (initProtocol.connection_lost)
        = (SockOutcome.closedError, ⟨[], none⟩, 1)
    ∧ hangs ⟨[], none⟩
    ∧ (Socket.recvfrom 7 emptySched 1 ⟨[], none⟩).1 ≠ SockOutcome.closedError := by
  refine ⟨rfl, ?_, by decide⟩
  intro fuel r
  rw [Socket.recvfrom, recv_idle_none]

/-- C4 amended: after closure is reported, `Socket.recvfrom` raises
ClosedError when it dequeues the sentinel; but once the sentinel has
been consumed and the queue is drained (no pending error, no further
callbacks), every subsequent call suspends indefinitely — it neither
raises ClosedError again nor raises a different error. -/
theorem C4_hang_after_drain (r fuel : Nat) :
    Socket.recvfrom (fuel + 1) emptySched r (initProtocol.connection_lost)
        = (SockOutcome.closedError, ⟨[], none⟩, r + 1)
    ∧ hangs ⟨[], none⟩ := by
  constructor
  · have hpoll : pollRound emptySched r (initProtocol.connection_lost)
        = Sum.inr (RecvOutcome.got none, ⟨[], none⟩) := rfl
    rw [Socket.recvfrom, recvfrom_succ]
    simp only [hpoll]
  · intro fuel2 r2
    rw [Socket.recvfrom, recv_idle_none]

/-- C5 counterexample: a truthy transport error is pending and a
datagram arrives during the first poll window after the report; the
consumer blocked in `recvfrom` is handed the datagram at the end of
that window — a full poll interval after the report in the worst-case
timing family — and the error is still undelivered and still pending.
With datagrams also arriving in the second window, delivery happens
only at the timeout of the third window, three poll intervals after the
report, exceeding the claimed one-interval bound. -/
theorem C5_counterexample :
    Socket.recvfrom 1 (schedK 1 [7] (9, 9)) 0 ⟨[], some ⟨0, true⟩⟩
        = (SockOutcome.ret [7] (9, 9), ⟨[], some ⟨0, true⟩⟩, 1)
    ∧ recvCalls 3 1 (schedK 2 [7] (9, 9)) 0 ⟨[], some ⟨0, true⟩⟩
        = ([SockOutcome.ret [7] (9, 9), SockOutcome.ret [7] (9, 9),
            SockOutcome.err ⟨0, true⟩], ⟨[], none⟩, 3) := by
  constructor <;> rfl

/-- C5 amended: a pending truthy error is raised at the timeout of the
first poll window in which no datagram is dequeued; every window in
which a datagram arrives instead hands the datagram to the consumer and
defers the error.  With one datagram arriving in each of the first `k`
windows, `k` calls return the datagrams and the error is delivered only
by the call ending at window `k` — so datagram arrivals postpone
delivery unboundedly, and the one-poll-interval bound holds only when
no datagram arrives during the wait. -/
theorem C5_error_deferred_by_datagrams (k j : Nat) (e : Exc) (d : Data)
    (a : Addr) (h : e.truthy = true) :
    recvCalls (k + 1) 1 (schedK (j + k) d a) j ⟨[], some e⟩
      = (List.replicate k (SockOutcome.ret d a) ++ [SockOutcome.err e],
         ⟨[], none⟩, j + k + 1) := by
  induction k generalizing j with
  | zero =>
    have hpoll : pollRound (schedK (j + 0) d a) j ⟨[], some e⟩
        = Sum.inr (RecvOutcome.raised e, ⟨[], none⟩) := by
      simp [pollRound, applyEvents, schedK, h]
    rw [recvCalls_succ]
    rw [Socket.recvfrom, recvfrom_succ]
    simp only [hpoll]
    rfl
  | succ k ih =>
    have hj : j < j + (k + 1) := by omega
    have hpoll : pollRound (schedK (j + (k + 1)) d a) j ⟨[], some e⟩
        = Sum.inr (RecvOutcome.got (some (d, a)), ⟨[], some e⟩) := by
      simp [pollRound, applyEvents, schedK, hj, applyEvent,
        SocketProtocol.datagram_received]
    have hk : j + (k + 1) = (j + 1) + k := by omega
    rw [recvCalls_succ]
    rw [Socket.recvfrom, recvfrom_succ]
    simp only [hpoll]
    rw [hk, ih (j + 1)]
    have harith : j + 1 + k + 1 = j + (k + 1) + 1 := by omega
    simp [List.replicate_succ, harith]

/-- Witness for C5 amended at one deferring datagram window. -/
theorem C5_witness :
    recvCalls 2 1 (schedK 1 [7] (8, 8)) 0 ⟨[], some ⟨1, true⟩⟩
      = ([SockOutcome.ret [7] (8, 8), SockOutcome.err ⟨1, true⟩],
         ⟨[], none⟩, 2) := by
  simpa using C5_error_deferred_by_datagrams 1 0 ⟨1, true⟩ [7] (8, 8) rfl

/-- C7: under the documented reactor contract (`connection_lost` is the
final lifecycle notification), the elements the callbacks ever enqueue —
which are exactly the queue contents of the protocol state the trace
produces from a fresh socket — contain at most one closure sentinel;
nothing is enqueued after `connection_lost` runs; and when a sentinel
was enqueued it is the last element ever enqueued. -/
theorem C7_sentinel_last (tr : List Event) (hok : ReactorOk tr) :
    (applyTrace tr).packets = enqueued tr
    ∧ (enqueued tr).count (none : QElem) ≤ 1
    ∧ (∀ l1 l2, tr = l1 ++ Event.lost :: l2 → enqueued l2 = [])
    ∧ ((none : QElem) ∈ enqueued tr
        → ∃ pre, enqueued tr = pre ++ [none] ∧ (none : QElem) ∉ pre) := by
  have hafter : ∀ l1 l2, tr = l1 ++ Event.lost :: l2 → enqueued l2 = [] :=
    fun l1 l2 hsplit => enqueued_of_onlyErrs l2 (hok l1 l2 hsplit)
  have hlast : (none : QElem) ∈ enqueued tr
      → ∃ pre, enqueued tr = pre ++ [none] ∧ (none : QElem) ∉ pre := by
    intro hmem
    obtain ⟨s1, s2, hsplit⟩ := List.append_of_mem (lost_mem_of_sentinel_enqueued tr hmem)
    refine ⟨enqueued s1, ?_, ?_⟩
    · rw [hsplit, enqueued_append]
      have hcons : enqueued (Event.lost :: s2) = none :: enqueued s2 := by
        simp [enqueued, List.filterMap_cons, enqueueOf]
      rw [hcons, hafter s1 s2 hsplit]
    · intro hmem1
      obtain ⟨t1, t2, hsplit1⟩ :=
        List.append_of_mem (lost_mem_of_sentinel_enqueued s1 hmem1)
      have hsplit2 : tr = t1 ++ Event.lost :: (t2 ++ Event.lost :: s2) := by
        rw [hsplit, hsplit1]; simp
      obtain ⟨e, he⟩ := hok t1 (t2 ++ Event.lost :: s2) hsplit2 Event.lost (by simp)
      exact Event.noConfusion he
  refine ⟨?_, ?_, hafter, hlast⟩
  · have h := packets_applyEvents tr initProtocol
    simpa [applyTrace, initProtocol] using h
  · by_cases hmem : (none : QElem) ∈ enqueued tr
    · obtain ⟨pre, hpre, hnotin⟩ := hlast hmem
      rw [hpre, List.count_append]
      have hzero : pre.count (none : QElem) = 0 :=
        List.count_eq_zero.mpr hnotin
      simp [hzero]
    · have hzero : (enqueued tr).count (none : QElem) = 0 :=
        List.count_eq_zero.mpr hmem
      omega

/-- Witness for C7 on the trace datagram-then-closure. -/
theorem C7_witness :
    (applyTrace [Event.datagram [1] (2, 3), Event.lost]).packets
        = enqueued [Event.datagram [1] (2, 3), Event.lost]
    ∧ (enqueued [Event.datagram [1] (2, 3), Event.lost]).count (none : QElem) ≤ 1 := by
  have hok : ReactorOk [Event.datagram [1] (2, 3), Event.lost] := by
    intro l1 l2 hsplit
    match l1, hsplit with
    | [], hsplit => simp at hsplit
    | [x], hsplit =>
      simp at hsplit
      obtain ⟨-, rfl⟩ := hsplit
      intro ev hev
      simp at hev
    | x :: y :: l1, hsplit => simp at hsplit
  exact ⟨(C7_sentinel_last _ hok).1, (C7_sentinel_last _ hok).2.1⟩

/-- Witness for C10 at a concrete falsy error. -/
theorem C10_witness :
    SocketProtocol.recvfrom 4 emptySched 0 ⟨[], some ⟨5, false⟩⟩
        = (RecvOutcome.waiting, ⟨[], some ⟨5, false⟩⟩, 4)
    ∧ (Socket.recvfrom 4 emptySched 0 ⟨[], some ⟨5, false⟩⟩).1
        = SockOutcome.waiting :=
  C10_falsy_error_retained ⟨5, false⟩ 0 4 rfl

end Asyncudp
